import Mathlib

/-!
Verification development for the `world_simulator` repository.

Part 1 embeds `src/classes.rs`: the `Type`/`Property`/`ClassMeta` data
model, the property-resolution merge `ClassMeta::new`, and the
`InMemoryRegistry` operations `add_class` and `add_property_id`.

Part 2 embeds `src/tokenizer/tokenize.rs`: the token and error types and
the single-pass scanner `tokenize`, including nested block comments and
string literals.

Modelling conventions:
* Rust `u32` identifiers become `Nat` (no arithmetic near overflow occurs).
* `HashMap` becomes an association list; `HashSet<Property>` becomes
  `Finset Property`; `HashSet<ClassID>` used only as a set becomes
  `Finset ClassID`.  Iteration order of a `HashSet`/`HashMap` is
  unspecified in Rust, so wherever the code iterates one (the parent loop
  of `ClassMeta::new`) the embedding takes the iteration order as an
  explicit list parameter.
* Rust panics (`unwrap`, `panic!`) are modelled by `Option`, `none`
  meaning the process aborts; fallible results (`Result<_, DuplicateDef>`)
  are modelled by `Except DuplicateDef _`.
* The registry trait parameter of `ClassMeta::new` is modelled by the one
  operation the constructor uses, `get_class`, i.e. a function
  `ClassID → Option ClassMeta`.
-/

/-- `ClassID` from classes.rs (`pub type ClassID = u32`). -/
abbrev ClassID := Nat

/-- `PropertyID` from classes.rs (`pub type PropertyID = u32`). -/
abbrev PropertyID := Nat

/-- The `Type` enum of classes.rs (named `Ty` because `Type` is reserved
in Lean): `Int`, `Float`, `String`, `Class(ClassID)`, `Invalid` (the
default). -/
inductive Ty where
  | int
  | float
  | string
  | cls (id : ClassID)
  | invalid
  deriving DecidableEq, Repr

/-- The `Property` struct of classes.rs: `{ id, inner_type, source }`,
with derived structural equality. -/
structure Property where
  id : PropertyID
  inner_type : Ty
  source : ClassID
  deriving DecidableEq, Repr

/-- `Property::default()`: all fields take their `Default` values, so
`id = 0`, `inner_type = Invalid`, `source = 0`. -/
def Property.default : Property := { id := 0, inner_type := Ty.invalid, source := 0 }

/-- Association-list lookup, the embedding of `HashMap::get` /
`Entry::Occupied`. -/
def lookupA {α β : Type} [DecidableEq α] (k : α) : List (α × β) → Option β
  | [] => none
  | (k', v) :: rest => if k' = k then some v else lookupA k rest

/-- Association-list removal of the entry for `k` (at most one entry per
key is ever stored), the embedding of `Entry::remove_entry`. -/
def eraseA {α β : Type} [DecidableEq α] (k : α) : List (α × β) → List (α × β)
  | [] => []
  | (k', v) :: rest => if k' = k then rest else (k', v) :: eraseA k rest

/-- Association-list insert-or-replace, the embedding of
`HashMap::insert`. -/
def updateA {α β : Type} [DecidableEq α] (k : α) (v : β) : List (α × β) → List (α × β)
  | [] => [(k, v)]
  | (k', v') :: rest => if k' = k then (k, v) :: rest else (k', v') :: updateA k v rest

/-- The embedding of `map.entry(k).or_default().extend(v)` on a
`HashMap<_, HashSet<Property>>`: union `v` into the set stored at `k`,
inserting an entry if absent. -/
def extendAt (k : String) (v : Finset Property) :
    List (String × Finset Property) → List (String × Finset Property)
  | [] => [(k, v)]
  | (k', s) :: rest => if k' = k then (k', s ∪ v) :: rest else (k', s) :: extendAt k v rest

/-- The `ClassMeta` struct of classes.rs.  `parents` is kept as the list
giving the (otherwise unspecified) `HashSet` iteration order used by the
constructor's parent loop; the field name `accessble_properties` keeps
the source's spelling. -/
structure ClassMeta where
  parents : List ClassID
  ancestors : Finset ClassID
  accessble_properties : List (String × Property)
  clashing_properties : List (String × Finset Property)
  shadowed_properties : List (String × Finset Property)
  deriving DecidableEq

/-- The body of the `for (k,v) in &p.clashing_properties` loop of
`ClassMeta::new` (classes.rs lines 335-361).  Note the occupied-entry
test is `entry.get().id == id`: the stored property's *property id*
against the new class's *class id*, exactly as in the source. -/
def clashStep (id : ClassID) (ans : ClassMeta) (kv : String × Finset Property) : ClassMeta :=
  match lookupA kv.1 ans.accessble_properties with
  | some entry =>
      if entry.id = id then
        { ans with shadowed_properties := extendAt kv.1 kv.2 ans.shadowed_properties }
      else
        { ans with
          accessble_properties := eraseA kv.1 ans.accessble_properties,
          clashing_properties := extendAt kv.1 (kv.2 ∪ {entry}) ans.clashing_properties }
  | none =>
      { ans with clashing_properties := extendAt kv.1 kv.2 ans.clashing_properties }

/-- The body of the `for (k,v) in &p.accessble_properties` loop of
`ClassMeta::new` (classes.rs lines 363-390).  As in the source, the
override test is `other_id == id` with `other_id = entry.get().id`, and
the diamond test is `v.source == other_id`. -/
def accStep (id : ClassID) (ans : ClassMeta) (kv : String × Property) : ClassMeta :=
  match lookupA kv.1 ans.accessble_properties with
  | some entry =>
      if entry.id = id then
        { ans with shadowed_properties := extendAt kv.1 {kv.2} ans.shadowed_properties }
      else if kv.2.source = entry.id then ans
      else
        { ans with
          accessble_properties := eraseA kv.1 ans.accessble_properties,
          clashing_properties := extendAt kv.1 ({kv.2} ∪ {entry}) ans.clashing_properties }
  | none => { ans with accessble_properties := (kv.1, kv.2) :: ans.accessble_properties }

/-- One iteration of the parent loop of `ClassMeta::new` (classes.rs
lines 321-391): look the parent up (`unwrap` = `none` on failure), extend
`ancestors`, carry over `shadowed_properties`, then run the clashing and
accessible merge loops. -/
def parentStep (reg : ClassID → Option ClassMeta) (id : ClassID)
    (ans : ClassMeta) (p : ClassID) : Option ClassMeta :=
  match reg p with
  | none => none
  | some pm =>
      let a1 := { ans with ancestors := ans.ancestors ∪ pm.ancestors }
      let a2 := pm.shadowed_properties.foldl
        (fun acc kv => { acc with shadowed_properties := extendAt kv.1 kv.2 acc.shadowed_properties }) a1
      let a3 := pm.clashing_properties.foldl (clashStep id) a2
      let a4 := pm.accessble_properties.foldl (accStep id) a3
      some a4

/-- The parent loop of `ClassMeta::new`, iterating the parents in the
order given by the list. -/
def mergeParents (reg : ClassID → Option ClassMeta) (id : ClassID) :
    ClassMeta → List ClassID → Option ClassMeta
  | ans, [] => some ans
  | ans, p :: rest =>
      match parentStep reg id ans p with
      | none => none
      | some a => mergeParents reg id a rest

/-- `ClassMeta::new` (classes.rs lines 310-394).  The initial value seeds
`ancestors` with the parents and `accessble_properties` with the own
properties; `parents` doubles as the iteration order of the Rust
`HashSet` loop.  `none` models the `unwrap` panic on an undefined
parent. -/
def ClassMeta.new (reg : ClassID → Option ClassMeta) (id : ClassID)
    (parents : List ClassID) (new_props : List (String × Property)) : Option ClassMeta :=
  mergeParents reg id
    { parents := parents
      ancestors := parents.toFinset
      accessble_properties := new_props
      clashing_properties := []
      shadowed_properties := [] } parents

/-- The `DuplicateDef` error struct of classes.rs. -/
structure DuplicateDef where
  deriving DecidableEq, Repr

/-- The `InMemoryRegistry` struct of classes.rs, with each `HashMap`
modelled as an association list. -/
structure InMemoryRegistry where
  classes : List (ClassID × ClassMeta × String)
  properties : List (PropertyID × Property × String)
  class_names : List (String × ClassID)
  property_names : List (String × List (ClassID × PropertyID))
  next_class_id : ClassID
  next_property_id : PropertyID
  deriving DecidableEq

/-- `InMemoryRegistry::new()`: empty maps, both counters start at 1. -/
def InMemoryRegistry.newReg : InMemoryRegistry :=
  { classes := [], properties := [], class_names := [], property_names := []
    next_class_id := 1, next_property_id := 1 }

/-- `InMemoryRegistry::add_class` (classes.rs lines 239-251): error if
the id already has metadata; otherwise recover the name by reverse
lookup over `class_names`, and — exactly as the source's
`.ok_or(DuplicateDef)?` — *return* `DuplicateDef` when no interned name
maps to the id.  The function is total: no path panics. -/
def add_class (reg : InMemoryRegistry) (id : ClassID) (value : ClassMeta) :
    Except DuplicateDef InMemoryRegistry :=
  match lookupA id reg.classes with
  | some _ => Except.error ⟨⟩
  | none =>
      match reg.class_names.find? (fun kv => decide (kv.2 = id)) with
      | none => Except.error ⟨⟩
      | some kv => Except.ok { reg with classes := (id, value, kv.1) :: reg.classes }

/-- `InMemoryRegistry::add_property_id` (classes.rs lines 219-237): mint
the next property id, record it under `(name, class)` (panic — `none` —
if that pair exists), and reserve the id slot with
`(Property::default(), name)` (panic if the id slot is occupied). -/
def add_property_id (reg : InMemoryRegistry) (name : String) (cls : ClassID) :
    Option (PropertyID × InMemoryRegistry) :=
  let id := reg.next_property_id
  let inner := (lookupA name reg.property_names).getD []
  if (lookupA cls inner).isSome then none
  else
    match lookupA id reg.properties with
    | some _ => none
    | none =>
        some (id, { reg with
          next_property_id := id + 1
          property_names := updateA name ((cls, id) :: inner) reg.property_names
          properties := (id, Property.default, name) :: reg.properties })

/-!
Part 2: the tokenizer of `src/tokenizer/tokenize.rs` and the error type
of `src/tokenizer/error_types.rs`.  The input is modelled as a
`List Char`; `&str` slice payloads (identifiers, the lexeme of a number)
become the corresponding lists of consumed characters.  The scanner is
split, as the Rust function structurally is, into the inner loops
(single-line comment skip, nested block comment, string literal, digit
run, identifier run) and the top-level dispatch loop; each inner loop
returns the unconsumed suffix and the updated position counters.
`Char.isAlphanum` stands in for Rust's Unicode `char::is_alphanumeric`
(they agree on ASCII input).  The length bounds needed by the
termination argument of `tokenizeLoop` are proved right before it.
-/

/-- The `Token` enum of tokenize.rs.  `comment` exists in the source but
is never produced (the push is commented out); `tilde` likewise has no
dispatch arm and is never produced. -/
inductive Token where
  | number (n : Int)
  | identifier (s : List Char)
  | string (s : List Char)
  | plus
  | minus
  | star
  | slash
  | percent
  | caret
  | and
  | or
  | not
  | tilde
  | equal
  | semicolon
  | colon
  | comma
  | dot
  | question
  | atSign
  | lparen
  | rparen
  | lbrace
  | rbrace
  | lbracket
  | rbracket
  | doubleEqual
  | notEqual
  | less
  | lessEqual
  | greater
  | greaterEqual
  | plusEqual
  | minusEqual
  | starEqual
  | slashEqual
  | percentEqual
  | andEqual
  | orEqual
  | caretEqual
  | leftShift
  | rightShift
  | leftShiftEqual
  | rightShiftEqual
  | eol
  | eof
  | comment (s : List Char)
  deriving DecidableEq, Repr

/-- The `TokenizerError` enum of error_types.rs; every variant carries a
1-based line and column. -/
inductive TokenizerError where
  | invalidCharacter (c : Char) (line col : Nat)
  | unterminatedString (line col : Nat)
  | unexpectedEndOfFile (ctx : String) (line col : Nat)
  | unmatchedCommentClosure (line col : Nat)
  | invalidNestedComment (line col : Nat)
  | expectedToken (t : String) (line col : Nat)
  deriving DecidableEq, Repr

/-- The single-line comment loop (tokenize.rs lines 120-125): consume
characters up to, but not including, the next newline.  The loop does
not touch the column counter. -/
def skipLineComment : List Char → List Char
  | [] => []
  | c :: rest => if c = '\n' then c :: rest else skipLineComment rest

/-- Result of the nested block comment loop: whether a matching `*/`
closed the outermost `/*`, the unconsumed suffix, and the updated
position counters. -/
structure CommentScan where
  closed : Bool
  rest : List Char
  line : Nat
  col : Nat
  deriving DecidableEq, Repr

/-- The nested block comment loop (tokenize.rs lines 135-166): each
consumed character updates the position; `/*` found via peek increments
the depth, `*/` decrements it and exits at depth 0; the peeked second
character of `/*` and `*/` is consumed so it is never reprocessed. -/
def scanBlockComment : List Char → Nat → Nat → Nat → CommentScan
  | [], _, line, col => ⟨false, [], line, col⟩
  | '/' :: '*' :: rest2, depth, line, col =>
      scanBlockComment rest2 (depth + 1) line (col + 2)
  | '*' :: '/' :: rest2, depth, line, col =>
      if depth - 1 = 0 then ⟨true, rest2, line, col + 2⟩
      else scanBlockComment rest2 (depth - 1) line (col + 2)
  | ch :: rest, depth, line, col =>
      if ch = '\n' then scanBlockComment rest depth (line + 1) 1
      else scanBlockComment rest depth line (col + 1)

/-- Result of the string literal loop: the decoded payload accumulated
so far, whether a closing quote was found, the unconsumed suffix, the
updated position, and any error pushed from inside the loop (only the
escape-at-end-of-input case). -/
structure StringScan where
  payload : List Char
  terminated : Bool
  rest : List Char
  line : Nat
  col : Nat
  errs : List TokenizerError
  deriving DecidableEq, Repr

/-- The string literal loop (tokenize.rs lines 197-229): backslash
escapes decode `\x22 \\ n t` specially and any other escaped character
to itself (column advances by 2, the line counter is not touched); a
backslash at end of input records `UnterminatedString` at the current
position and stops; an unescaped quote terminates; any other character
is kept verbatim, newlines updating line/column. -/
def scanString : List Char → Nat → Nat → StringScan
  | [], line, col => ⟨[], false, [], line, col, []⟩
  | '\\' :: [], line, col =>
      ⟨[], false, [], line, col, [TokenizerError.unterminatedString line col]⟩
  | '\\' :: esc :: rest2, line, col =>
      let decoded : Char :=
        if esc = '\x22' then '\x22'
        else if esc = '\\' then '\\'
        else if esc = 'n' then '\n'
        else if esc = 't' then '\t'
        else esc
      let s := scanString rest2 line (col + 2)
      ⟨decoded :: s.payload, s.terminated, s.rest, s.line, s.col, s.errs⟩
  | '\x22' :: rest, line, col => ⟨[], true, rest, line, col + 1, []⟩
  | ch :: rest, line, col =>
      let s := if ch = '\n' then scanString rest (line + 1) 1
               else scanString rest line (col + 1)
      ⟨ch :: s.payload, s.terminated, s.rest, s.line, s.col, s.errs⟩

/-- The digit run of the number literal arm (tokenize.rs lines 242-249):
the maximal prefix of ASCII digits and the suffix after it. -/
def digitRun : List Char → List Char × List Char
  | [] => ([], [])
  | c :: rest =>
      if c.isDigit then
        let r := digitRun rest
        (c :: r.1, r.2)
      else ([], c :: rest)

/-- The identifier run (tokenize.rs lines 268-275): the maximal prefix
of alphanumerics and underscores, and the suffix after it. -/
def identRun : List Char → List Char × List Char
  | [] => ([], [])
  | c :: rest =>
      if c.isAlphanum || c = '_' then
        let r := identRun rest
        (c :: r.1, r.2)
      else ([], c :: rest)

/-- Decimal value of a digit run, the value `num_str.parse::<i32>()`
computes when it does not overflow. -/
def digitsToNat (l : List Char) : Nat :=
  l.foldl (fun acc c => 10 * acc + (c.toNat - 48)) 0

/-- The suffix returned by `skipLineComment` is no longer than its
input (needed for the termination of `tokenizeLoop`). -/
theorem skipLineComment_length_le (l : List Char) :
    (skipLineComment l).length ≤ l.length := by
  induction l with
  | nil => simp [skipLineComment]
  | cons c rest ih =>
      rw [skipLineComment]
      split
      · simp
      · simp only [List.length_cons]; omega

/-- The suffix returned by `scanBlockComment` is no longer than its
input (needed for the termination of `tokenizeLoop`). -/
theorem scanBlockComment_rest_length_le (l : List Char) (depth line col : Nat) :
    (scanBlockComment l depth line col).rest.length ≤ l.length := by
  induction l, depth, line, col using scanBlockComment.induct with
  | case1 => simp [scanBlockComment]
  | case2 rest2 depth line col ih =>
      rw [scanBlockComment]; simp only [List.length_cons]; omega
  | case3 rest2 depth line col hd =>
      rw [scanBlockComment, if_pos hd]; simp only [List.length_cons]; omega
  | case4 rest2 depth line col hd ih =>
      rw [scanBlockComment, if_neg hd]; simp only [List.length_cons]; omega
  | case5 rest depth line col hA hB ih =>
      rw [scanBlockComment]
      · rw [if_pos rfl]; simp only [List.length_cons]; omega
      all_goals assumption
  | case6 ch rest depth line col hA hB hne ih =>
      rw [scanBlockComment]
      · rw [if_neg hne]; simp only [List.length_cons]; omega
      all_goals assumption

/-- The suffix returned by `scanString` is no longer than its input
(needed for the termination of `tokenizeLoop`). -/
theorem scanString_rest_length_le (l : List Char) (line col : Nat) :
    (scanString l line col).rest.length ≤ l.length := by
  induction l, line, col using scanString.induct with
  | case1 => simp [scanString]
  | case2 => simp [scanString]
  | case3 esc rest2 line col ih =>
      rw [scanString]; simp only [List.length_cons]; omega
  | case4 rest line col =>
      rw [scanString]; simp only [List.length_cons]; omega
  | case5 ch rest line col hA hB ih =>
      rw [scanString]
      · simp only [List.length_cons]
        split <;> omega
      all_goals assumption

/-- The suffix returned by `digitRun` is no longer than its input
(needed for the termination of `tokenizeLoop`). -/
theorem digitRun_rest_length_le (l : List Char) :
    (digitRun l).2.length ≤ l.length := by
  induction l with
  | nil => simp [digitRun]
  | cons c rest ih =>
      rw [digitRun]
      split
      · simp only [List.length_cons]; omega
      · simp

/-- The suffix returned by `identRun` is no longer than its input
(needed for the termination of `tokenizeLoop`). -/
theorem identRun_rest_length_le (l : List Char) :
    (identRun l).2.length ≤ l.length := by
  induction l with
  | nil => simp [identRun]
  | cons c rest ih =>
      rw [identRun]
      split
      · simp only [List.length_cons]; omega
      · simp

/-- The main scan loop of `tokenize` (tokenize.rs lines 99-509), written
in forward style: the returned pair is the vector of tokens and the list
of reported errors produced from this point on, so the whole run is the
result at the initial state.  The dispatch arms are in the source's
order; peeked second/third characters appear as nested list patterns.
As in the source, the first character of a number or identifier does not
advance the column counter (only the peeked continuation characters do),
and a number whose digit run overflows `i32` reports `InvalidCharacter`
carrying the first digit and emits no token. -/
def tokenizeLoop : List Char → Nat → Nat → List Token × List TokenizerError
  | [], _, _ => ([Token.eof], [])
  | ' ' :: rest, line, col => tokenizeLoop rest line (col + 1)
  | '\t' :: rest, line, col => tokenizeLoop rest line (col + 1)
  | '\n' :: rest, line, col =>
      let r := tokenizeLoop rest (line + 1) 1
      (Token.eol :: r.1, r.2)
  | '/' :: '/' :: rest2, line, col =>
      tokenizeLoop (skipLineComment rest2) line (col + 2)
  | '/' :: '*' :: rest2, line, col =>
      let s := scanBlockComment rest2 1 line (col + 2)
      let r := tokenizeLoop s.rest s.line s.col
      if s.closed then r
      else (r.1, TokenizerError.invalidNestedComment line (col + 2) :: r.2)
  | '/' :: '=' :: rest2, line, col =>
      let r := tokenizeLoop rest2 line (col + 2)
      (Token.slashEqual :: r.1, r.2)
  | '/' :: rest, line, col =>
      let r := tokenizeLoop rest line (col + 1)
      (Token.slash :: r.1, r.2)
  | '\x22' :: rest, line, col =>
      let s := scanString rest line (col + 1)
      let r := tokenizeLoop s.rest s.line s.col
      (Token.string s.payload :: r.1,
        s.errs ++
          (if s.terminated then [] else [TokenizerError.unterminatedString line (col + 1)]) ++
          r.2)
  | '+' :: '=' :: rest2, line, col =>
      let r := tokenizeLoop rest2 line (col + 2)
      (Token.plusEqual :: r.1, r.2)
  | '+' :: rest, line, col =>
      let r := tokenizeLoop rest line (col + 1)
      (Token.plus :: r.1, r.2)
  | '-' :: '=' :: rest2, line, col =>
      let r := tokenizeLoop rest2 line (col + 2)
      (Token.minusEqual :: r.1, r.2)
  | '-' :: rest, line, col =>
      let r := tokenizeLoop rest line (col + 1)
      (Token.minus :: r.1, r.2)
  | '*' :: '/' :: rest2, line, col =>
      let r := tokenizeLoop rest2 line (col + 2)
      (r.1, TokenizerError.unmatchedCommentClosure line col :: r.2)
  | '*' :: '=' :: rest2, line, col =>
      let r := tokenizeLoop rest2 line (col + 2)
      (Token.starEqual :: r.1, r.2)
  | '*' :: rest, line, col =>
      let r := tokenizeLoop rest line (col + 1)
      (Token.star :: r.1, r.2)
  | '%' :: '=' :: rest2, line, col =>
      let r := tokenizeLoop rest2 line (col + 2)
      (Token.percentEqual :: r.1, r.2)
  | '%' :: rest, line, col =>
      let r := tokenizeLoop rest line (col + 1)
      (Token.percent :: r.1, r.2)
  | '^' :: '=' :: rest2, line, col =>
      let r := tokenizeLoop rest2 line (col + 2)
      (Token.caretEqual :: r.1, r.2)
  | '^' :: rest, line, col =>
      let r := tokenizeLoop rest line (col + 1)
      (Token.caret :: r.1, r.2)
  | '&' :: '=' :: rest2, line, col =>
      let r := tokenizeLoop rest2 line (col + 2)
      (Token.andEqual :: r.1, r.2)
  | '&' :: rest, line, col =>
      let r := tokenizeLoop rest line (col + 1)
      (Token.and :: r.1, r.2)
  | '|' :: '=' :: rest2, line, col =>
      let r := tokenizeLoop rest2 line (col + 2)
      (Token.orEqual :: r.1, r.2)
  | '|' :: rest, line, col =>
      let r := tokenizeLoop rest line (col + 1)
      (Token.or :: r.1, r.2)
  | '!' :: '=' :: rest2, line, col =>
      let r := tokenizeLoop rest2 line (col + 2)
      (Token.notEqual :: r.1, r.2)
  | '!' :: rest, line, col =>
      let r := tokenizeLoop rest line (col + 1)
      (Token.not :: r.1, r.2)
  | '<' :: '=' :: rest2, line, col =>
      let r := tokenizeLoop rest2 line (col + 2)
      (Token.lessEqual :: r.1, r.2)
  | '<' :: '<' :: '=' :: rest3, line, col =>
      let r := tokenizeLoop rest3 line (col + 3)
      (Token.leftShiftEqual :: r.1, r.2)
  | '<' :: '<' :: rest2, line, col =>
      let r := tokenizeLoop rest2 line (col + 2)
      (Token.leftShift :: r.1, r.2)
  | '<' :: rest, line, col =>
      let r := tokenizeLoop rest line (col + 1)
      (Token.less :: r.1, r.2)
  | '>' :: '=' :: rest2, line, col =>
      let r := tokenizeLoop rest2 line (col + 2)
      (Token.greaterEqual :: r.1, r.2)
  | '>' :: '>' :: '=' :: rest3, line, col =>
      let r := tokenizeLoop rest3 line (col + 3)
      (Token.rightShiftEqual :: r.1, r.2)
  | '>' :: '>' :: rest2, line, col =>
      let r := tokenizeLoop rest2 line (col + 2)
      (Token.rightShift :: r.1, r.2)
  | '>' :: rest, line, col =>
      let r := tokenizeLoop rest line (col + 1)
      (Token.greater :: r.1, r.2)
  | '=' :: '=' :: rest2, line, col =>
      let r := tokenizeLoop rest2 line (col + 2)
      (Token.doubleEqual :: r.1, r.2)
  | '=' :: rest, line, col =>
      let r := tokenizeLoop rest line (col + 1)
      (Token.equal :: r.1, r.2)
  | ';' :: rest, line, col =>
      let r := tokenizeLoop rest line (col + 1)
      (Token.semicolon :: r.1, r.2)
  | ':' :: rest, line, col =>
      let r := tokenizeLoop rest line (col + 1)
      (Token.colon :: r.1, r.2)
  | ',' :: rest, line, col =>
      let r := tokenizeLoop rest line (col + 1)
      (Token.comma :: r.1, r.2)
  | '.' :: rest, line, col =>
      let r := tokenizeLoop rest line (col + 1)
      (Token.dot :: r.1, r.2)
  | '?' :: rest, line, col =>
      let r := tokenizeLoop rest line (col + 1)
      (Token.question :: r.1, r.2)
  | '@' :: rest, line, col =>
      let r := tokenizeLoop rest line (col + 1)
      (Token.atSign :: r.1, r.2)
  | '(' :: rest, line, col =>
      let r := tokenizeLoop rest line (col + 1)
      (Token.lparen :: r.1, r.2)
  | ')' :: rest, line, col =>
      let r := tokenizeLoop rest line (col + 1)
      (Token.rparen :: r.1, r.2)
  | '\x7b' :: rest, line, col =>
      let r := tokenizeLoop rest line (col + 1)
      (Token.lbrace :: r.1, r.2)
  | '\x7d' :: rest, line, col =>
      let r := tokenizeLoop rest line (col + 1)
      (Token.rbrace :: r.1, r.2)
  | '[' :: rest, line, col =>
      let r := tokenizeLoop rest line (col + 1)
      (Token.lbracket :: r.1, r.2)
  | ']' :: rest, line, col =>
      let r := tokenizeLoop rest line (col + 1)
      (Token.rbracket :: r.1, r.2)
  | c :: rest, line, col =>
      if c.isDigit then
        let d := digitRun rest
        let col2 := col + d.1.length
        let n := digitsToNat (c :: d.1)
        let r := tokenizeLoop d.2 line col2
        if n ≤ 2147483647 then (Token.number (Int.ofNat n) :: r.1, r.2)
        else (r.1, TokenizerError.invalidCharacter c line col2 :: r.2)
      else if c.isAlpha || c = '_' then
        let d := identRun rest
        let r := tokenizeLoop d.2 line (col + d.1.length)
        (Token.identifier (c :: d.1) :: r.1, r.2)
      else
        let r := tokenizeLoop rest line (col + 1)
        (r.1, TokenizerError.invalidCharacter c line col :: r.2)
termination_by l _ _ => l.length
decreasing_by
  all_goals simp only [List.length_cons]
  all_goals
    first
    | omega
    | (refine Nat.lt_of_le_of_lt (skipLineComment_length_le _) ?_; omega)
    | (refine Nat.lt_of_le_of_lt (scanBlockComment_rest_length_le _ _ _ _) ?_; omega)
    | (refine Nat.lt_of_le_of_lt (scanString_rest_length_le _ _ _) ?_; omega)
    | (refine Nat.lt_of_le_of_lt (digitRun_rest_length_le _) ?_; omega)
    | (refine Nat.lt_of_le_of_lt (identRun_rest_length_le _) ?_; omega)

/-- `tokenize` (tokenize.rs line 83): run the scan loop from position
`(1, 1)`; the final `EOF` push is the base case of `tokenizeLoop`. -/
def tokenize (input : String) : List Token × List TokenizerError :=
  tokenizeLoop input.data 1 1

/-!
Concrete fixtures used by the claim theorems.  The registries are
modelled directly as `get_class` functions; every `ClassMeta` stored in
them is produced by `ClassMeta.new` from parents already present, and
every own property has its declaring class as `source`, as the
registry's helpers arrange.  Class ids and property ids are minted by
independent counters in `InMemoryRegistry`, so the numeric values chosen
below (a property id differing from its owner's class id) are reachable
through the public interning API.
-/

/-- Class 1's own property `n`: property id 2, source class 1. -/
def pN1 : Property := { id := 2, inner_type := Ty.int, source := 1 }

/-- Class 2's own property `n`: property id 1, source class 2. -/
def pN2 : Property := { id := 1, inner_type := Ty.float, source := 2 }

/-- Registry with two parentless classes 1 and 2, each declaring `n`. -/
def regC1 : ClassID → Option ClassMeta := fun i =>
  if i = 1 then ClassMeta.new (fun _ => none) 1 [] [("n", pN1)]
  else if i = 2 then ClassMeta.new (fun _ => none) 2 [] [("n", pN2)]
  else none

/-- Class A (id 1): property `name`, property id 1. -/
def pName1 : Property := { id := 1, inner_type := Ty.string, source := 1 }

/-- Class A (id 1): property `age`, property id 2. -/
def pAge : Property := { id := 2, inner_type := Ty.int, source := 1 }

/-- Class B (id 2): its own redefinition of `name`, property id 3. -/
def pName2 : Property := { id := 3, inner_type := Ty.string, source := 2 }

/-- Registry holding only class A (id 1) with `name` and `age`; the
exact setup of the repository's `test_property_shadowing`. -/
def regC3 : ClassID → Option ClassMeta := fun i =>
  if i = 1 then ClassMeta.new (fun _ => none) 1 [] [("name", pName1), ("age", pAge)] else none

/-- Class A (id 1): property `y`, property id 1. -/
def pY : Property := { id := 1, inner_type := Ty.int, source := 1 }

/-- Class A (id 1): property `x`, property id 2 (≠ class id 1). -/
def pX : Property := { id := 2, inner_type := Ty.int, source := 1 }

/-- Registry holding class A (id 1) declaring `y` and `x`. -/
def regC4a : ClassID → Option ClassMeta := fun i =>
  if i = 1 then ClassMeta.new (fun _ => none) 1 [] [("y", pY), ("x", pX)] else none

/-- Registry extending `regC4a` with B (id 2) and C (id 3), both
inheriting A and declaring nothing. -/
def regC4b : ClassID → Option ClassMeta := fun i =>
  if i = 2 then ClassMeta.new regC4a 2 [1] []
  else if i = 3 then ClassMeta.new regC4a 3 [1] []
  else none

/-- Class X (id 1): property `s`, property id 1. -/
def pS1 : Property := { id := 1, inner_type := Ty.int, source := 1 }

/-- Class Y (id 2): property `s`, property id 2. -/
def pS2 : Property := { id := 2, inner_type := Ty.float, source := 2 }

/-- Class V (id 4): property `s`, property id 3. -/
def pS4 : Property := { id := 3, inner_type := Ty.string, source := 4 }

/-- Registry with parentless classes X (id 1) and Y (id 2), both
declaring `s`. -/
def regC2a : ClassID → Option ClassMeta := fun i =>
  if i = 1 then ClassMeta.new (fun _ => none) 1 [] [("s", pS1)]
  else if i = 2 then ClassMeta.new (fun _ => none) 2 [] [("s", pS2)]
  else none

/-- Registry extending `regC2a` with Z (id 3), which inherits X and Y
and so carries `s` as a clash, and the independent class V (id 4)
declaring `s`. -/
def regC2b : ClassID → Option ClassMeta := fun i =>
  if i = 3 then ClassMeta.new regC2a 3 [1, 2] []
  else if i = 4 then ClassMeta.new (fun _ => none) 4 [] [("s", pS4)]
  else none

/-- An empty `ClassMeta`, used as the payload of the `add_class`
counterexample. -/
def metaEmpty : ClassMeta :=
  { parents := [], ancestors := ∅, accessble_properties := []
    clashing_properties := [], shadowed_properties := [] }

/-- The registry state after `add_property_id` on a fresh registry with
property name `x` for class 1. -/
def regW8 : InMemoryRegistry :=
  { InMemoryRegistry.newReg with
    next_property_id := 2
    property_names := [("x", [(1, 1)])]
    properties := [(1, Property.default, "x")] }

/-!
Helper lemmas about the scanners and the parent merge, shared by the
claim theorems below.
-/

/-- If the block comment loop did not find a matching closer, it
consumed the whole input. -/
theorem scanBlockComment_not_closed_rest (l : List Char) (depth line col : Nat)
    (h : (scanBlockComment l depth line col).closed = false) :
    (scanBlockComment l depth line col).rest = [] := by
  induction l, depth, line, col using scanBlockComment.induct with
  | case1 => rfl
  | case2 rest2 depth line col ih =>
      rw [scanBlockComment] at h ⊢
      exact ih h
  | case3 rest2 depth line col hd =>
      rw [scanBlockComment, if_pos hd] at h
      simp at h
  | case4 rest2 depth line col hd ih =>
      rw [scanBlockComment, if_neg hd] at h ⊢
      exact ih h
  | case5 rest depth line col hA hB ih =>
      rw [scanBlockComment] at h ⊢
      · rw [if_pos rfl] at h ⊢
        exact ih h
      all_goals assumption
  | case6 ch rest depth line col hA hB hne ih =>
      rw [scanBlockComment] at h ⊢
      · rw [if_neg hne] at h ⊢
        exact ih h
      all_goals assumption

/-- If the string loop never found an unescaped closing quote, it
consumed the whole input. -/
theorem scanString_not_terminated_rest (l : List Char) (line col : Nat)
    (h : (scanString l line col).terminated = false) :
    (scanString l line col).rest = [] := by
  induction l, line, col using scanString.induct with
  | case1 => rfl
  | case2 line col => rfl
  | case3 esc rest2 line col ih =>
      rw [scanString] at h ⊢
      exact ih h
  | case4 rest line col =>
      rw [scanString] at h
      simp at h
  | case5 ch rest line col hA hB hC ih1 ih2 =>
      rw [scanString] at h ⊢
      · by_cases hch : ch = '\n'
        · rw [if_pos hch] at h ⊢
          exact ih1 h
        · rw [if_neg hch] at h ⊢
          exact ih2 h
      all_goals assumption

/-- Every newline consumed by the block comment loop bumps the line
counter exactly once: the final line plus the newlines left over equals
the initial line plus the newlines of the input. -/
theorem scanBlockComment_line_count (l : List Char) (depth line col : Nat) :
    (scanBlockComment l depth line col).line +
        (scanBlockComment l depth line col).rest.count '\n' =
      line + l.count '\n' := by
  induction l, depth, line, col using scanBlockComment.induct with
  | case1 => simp [scanBlockComment]
  | case2 rest2 depth line col ih =>
      rw [scanBlockComment]
      simp only [List.count_cons, beq_iff_eq, Char.reduceEq, reduceIte]
      omega
  | case3 rest2 depth line col hd =>
      rw [scanBlockComment, if_pos hd]
      simp only [List.count_cons, beq_iff_eq, Char.reduceEq, reduceIte]
      omega
  | case4 rest2 depth line col hd ih =>
      rw [scanBlockComment, if_neg hd]
      simp only [List.count_cons, beq_iff_eq, Char.reduceEq, reduceIte]
      omega
  | case5 rest depth line col hA hB ih =>
      rw [scanBlockComment]
      · rw [if_pos rfl]
        simp only [List.count_cons, beq_iff_eq, Char.reduceEq, reduceIte]
        omega
      all_goals assumption
  | case6 ch rest depth line col hA hB hne ih =>
      rw [scanBlockComment]
      · rw [if_neg hne]
        simp only [List.count_cons, beq_iff_eq]
        rw [if_neg hne]
        omega
      all_goals assumption

/-- Every newline the string loop consumes is kept in the decoded
payload: the newlines of the input are bounded by those of the payload
plus those of the unconsumed suffix. -/
theorem scanString_newline_count (l : List Char) (line col : Nat) :
    l.count '\n' ≤ (scanString l line col).payload.count '\n' +
      (scanString l line col).rest.count '\n' := by
  induction l, line, col using scanString.induct with
  | case1 => simp [scanString]
  | case2 line col => simp [scanString]
  | case3 esc rest2 line col ih =>
      rw [scanString]
      simp only [List.count_cons, beq_iff_eq, Char.reduceEq, reduceIte]
      by_cases hesc : esc = '\n'
      · subst hesc
        simp only [Char.reduceEq, reduceIte, if_neg (by decide : ¬('\n' : Char) = '\x22'),
          if_neg (by decide : ¬('\n' : Char) = '\\'), if_neg (by decide : ¬('\n' : Char) = 'n'),
          if_neg (by decide : ¬('\n' : Char) = 't'), if_pos rfl]
        omega
      · rw [if_neg hesc]
        omega
  | case4 rest line col =>
      rw [scanString]
      simp only [List.count_cons, beq_iff_eq, Char.reduceEq, reduceIte]
      omega
  | case5 ch rest line col hA hB hC ih1 ih2 =>
      rw [scanString]
      · by_cases hch : ch = '\n'
        · rw [if_pos hch]
          subst hch
          simp only [List.count_cons, beq_iff_eq, Char.reduceEq, reduceIte, if_pos rfl]
          omega
        · rw [if_neg hch]
          simp only [List.count_cons, beq_iff_eq]
          omega
      all_goals assumption

/-- The parent merge loop succeeds exactly when every parent in the
iteration list is defined in the registry. -/
theorem mergeParents_isSome (reg : ClassID → Option ClassMeta) (id : ClassID) :
    ∀ (l : List ClassID) (ans : ClassMeta),
      (mergeParents reg id ans l).isSome = true ↔ ∀ p ∈ l, (reg p).isSome = true := by
  intro l
  induction l with
  | nil => intro ans; simp [mergeParents]
  | cons p rest ih =>
      intro ans
      rw [mergeParents]
      cases hp : reg p with
      | none =>
          simp [parentStep, hp]
      | some pm =>
          simp only [parentStep, hp]
          rw [ih]
          simp [hp]

set_option maxHeartbeats 2000000 in
/-- A top-level newline emits exactly one `EOL` token, bumps the line
counter and resets the column. -/
theorem tokenizeLoop_newline_step (rest : List Char) (line col : Nat) :
    tokenizeLoop ('\n' :: rest) line col =
      (Token.eol :: (tokenizeLoop rest (line + 1) 1).1, (tokenizeLoop rest (line + 1) 1).2) := by
  rw [tokenizeLoop]

/-- The block comment arm contributes no token of its own — in
particular no `EOL` for the newlines it consumed — whether or not the
comment was closed. -/
theorem tokenizeLoop_blockComment_tokens (rest : List Char) (line col : Nat) :
    (tokenizeLoop ('/' :: '*' :: rest) line col).1 =
      (tokenizeLoop (scanBlockComment rest 1 line (col + 2)).rest
        (scanBlockComment rest 1 line (col + 2)).line
        (scanBlockComment rest 1 line (col + 2)).col).1 := by
  rw [tokenizeLoop]
  split <;> rfl

/-- The string literal arm contributes exactly one `String` token
carrying the decoded payload — never an `EOL`, whatever the payload
contains. -/
theorem tokenizeLoop_string_tokens (rest : List Char) (line col : Nat) :
    (tokenizeLoop ('\x22' :: rest) line col).1 =
      Token.string (scanString rest line (col + 1)).payload ::
        (tokenizeLoop (scanString rest line (col + 1)).rest
          (scanString rest line (col + 1)).line
          (scanString rest line (col + 1)).col).1 := by
  rw [tokenizeLoop]

/-!
The claim theorems.
-/

/-- Claim C1 (evaluation at the failing input): the property-resolution
merge of `ClassMeta::new` is *not* order-independent.  With class 1
declaring `n` as property id 2 and class 2 declaring `n` as property
id 1 (reachable numbering, since class and property counters are
independent), iterating the parents as `[1, 2]` leaves class 1's record
accessible under `n` while `[2, 1]` leaves class 2's: the diamond test
`v.source == entry.id` compares a source class id against a property id
and here accepts both orders, each keeping its first entry. -/
theorem classMeta_new_parent_order_dependent :
    (ClassMeta.new regC1 3 [1, 2] []).bind (fun m => lookupA "n" m.accessble_properties) = some pN1 ∧
    (ClassMeta.new regC1 3 [2, 1] []).bind (fun m => lookupA "n" m.accessble_properties) = some pN2 ∧
    pN1 ≠ pN2 := by decide

/-- Claim C2 (evaluation at the failing input): the key sets of
`accessble_properties` and `clashing_properties` are *not* disjoint.
For class 5 inheriting, in this order, Z (id 3, which carries `s` as a
clash inherited from X and Y) and V (id 4, which supplies `s`
accessibly), the clashing merge records `s` as clashing while the later
accessible merge re-inserts `s` into the accessible map without
consulting the clashing map, so `s` ends up in both. -/
theorem classMeta_new_accessible_clashing_overlap :
    (ClassMeta.new regC2b 5 [3, 4] []).bind (fun m => lookupA "s" m.accessble_properties) = some pS4 ∧
    ((ClassMeta.new regC2b 5 [3, 4] []).bind (fun m => lookupA "s" m.clashing_properties)).map
      (fun s => (decide (pS1 ∈ s), decide (pS2 ∈ s), s.card)) = some (true, true, 2) := by
  decide

/-- Claim C3 (evaluation at the failing input): the override test is
*not* the claimed `accessible[name].source == C`.  In the exact setup of
the repository's own `test_property_shadowing` (class A = 1 declaring
`name` with property id 1 and `age` with id 2, class B = 2 redefining
`name` with property id 3), `accessible["name"].source = 2 = B`, so the
claim requires A's `name` to be shadowed and B's kept accessible; the
code instead compares the entry's property id 3 with the class id 2,
takes the clash branch, removes `name` from the accessible map and
records both definitions as clashing. -/
theorem classMeta_new_override_test_on_property_id :
    (ClassMeta.new regC3 2 [1] [("name", pName2)]).bind
        (fun m => lookupA "name" m.accessble_properties) = none ∧
    (ClassMeta.new regC3 2 [1] [("name", pName2)]).bind
        (fun m => lookupA "name" m.clashing_properties) = some {pName1, pName2} ∧
    pName2.source = 2 := by decide

/-- Claim C4 (evaluation at the failing input): two parents supplying
*equal* `Property` records need not unify.  B (id 2) and C (id 3) both
inherit A (id 1), which declares `y` (property id 1) and `x` (property
id 2); both parents hand class 4 the identical record for `x`, yet the
diamond test `v.source == entry.id` compares source 1 with property
id 2 and fails, so `x` is demoted to a (singleton) clash instead of the
claimed single accessible entry with source A.  (`y`, whose property id
happens to coincide numerically with A's class id, unifies — exposing
that the test is on the id, not on the source.) -/
theorem classMeta_new_diamond_equal_records_clash :
    (ClassMeta.new regC4a 2 [1] []).bind (fun m => lookupA "x" m.accessble_properties) = some pX ∧
    (ClassMeta.new regC4a 3 [1] []).bind (fun m => lookupA "x" m.accessble_properties) = some pX ∧
    (ClassMeta.new regC4b 4 [2, 3] []).bind (fun m => lookupA "x" m.accessble_properties) = none ∧
    (ClassMeta.new regC4b 4 [2, 3] []).bind (fun m => lookupA "x" m.clashing_properties) = some {pX} ∧
    (ClassMeta.new regC4b 4 [2, 3] []).bind (fun m => lookupA "y" m.accessble_properties) = some pY := by
  decide

/-- Claim C5 (counterexample): `add_class` on a fresh registry, whose
id 1 has no metadata and no interned name, *returns* the `DuplicateDef`
error value — it neither succeeds ("exactly when the id already has
metadata") nor aborts the process (the embedding is a total function
with no panic outcome; the source reaches this case via
`.ok_or(DuplicateDef)?`). -/
theorem add_class_unknown_id_returns_error :
    add_class InMemoryRegistry.newReg 1 metaEmpty = Except.error ⟨⟩ ∧
      lookupA 1 InMemoryRegistry.newReg.classes = none := ⟨rfl, rfl⟩

/-- Claim C5 (amended): `add_class` succeeds exactly when the id has no
stored metadata *and* some interned class name maps to it; in every
other case — including the interned-id/name-lookup mismatch — it
returns the `DuplicateDef` error value rather than aborting. -/
theorem add_class_ok_iff (reg : InMemoryRegistry) (id : ClassID) (value : ClassMeta) :
    (∃ reg', add_class reg id value = Except.ok reg') ↔
      (lookupA id reg.classes = none ∧ ∃ name, (name, id) ∈ reg.class_names) := by
  constructor
  · rintro ⟨reg', hr⟩
    unfold add_class at hr
    cases h1 : lookupA id reg.classes with
    | some m => rw [h1] at hr; exact absurd hr (by simp)
    | none =>
        rw [h1] at hr
        cases h2 : reg.class_names.find? (fun kv => decide (kv.2 = id)) with
        | none => rw [h2] at hr; exact absurd hr (by simp)
        | some kv =>
            refine ⟨rfl, kv.1, ?_⟩
            have hp : kv.2 = id := by simpa using List.find?_some h2
            have hm := List.mem_of_find?_eq_some h2
            have hkv : (kv.1, id) = kv := by
              rw [← hp]
            rw [hkv]
            exact hm
  · rintro ⟨h1, name, hmem⟩
    unfold add_class
    rw [h1]
    cases h2 : reg.class_names.find? (fun kv => decide (kv.2 = id)) with
    | none =>
        have := List.find?_eq_none.mp h2 (name, id) hmem
        simp at this
    | some kv => exact ⟨_, rfl⟩

/-- Claim C6 (counterexample): the `InvalidNestedComment` error does
*not* carry the position of the outermost unclosed `/*` opener.  For
the spec's own scenario `"/* outer /* inner */ "` the opener sits at
line 1, column 1, yet the single reported error carries column 3 — the
source captures `comment_start_column` only after `current_column += 2`
has advanced past the opener. -/
theorem tokenize_unclosed_comment_position_cex :
    tokenize "/* outer /* inner */ " =
      ([Token.eof], [TokenizerError.invalidNestedComment 1 3]) ∧ (3 : Nat) ≠ 1 := by
  constructor
  · show tokenizeLoop ('/' :: '*' :: (" outer /* inner */ ".data)) 1 1 = _
    have h : (scanBlockComment (" outer /* inner */ ".data) 1 1 (1 + 2)).closed = false := by
      decide
    have hrest := scanBlockComment_not_closed_rest (" outer /* inner */ ".data) 1 1 (1 + 2) h
    rw [tokenizeLoop]
    simp only [h, hrest]
    rw [tokenizeLoop]
    simp
  · decide

/-- Claim C7 (counterexample): the `UnterminatedString` error does
*not* carry the opening quote's position.  For the input `"ab` the
quote sits at line 1, column 1, yet the reported error carries
column 2 — the source captures `string_start_column` only after
`current_column += 1` has advanced past the quote. -/
theorem tokenize_unterminated_string_position_cex :
    tokenize "\x22ab" = ([Token.string ('a' :: 'b' :: []), Token.eof],
      [TokenizerError.unterminatedString 1 2]) ∧ (2 : Nat) ≠ 1 := by
  constructor
  · show tokenizeLoop ('\x22' :: ("ab".data)) 1 1 = _
    have h : (scanString ("ab".data) 1 (1 + 1)).terminated = false := by decide
    have hrest := scanString_not_terminated_rest ("ab".data) 1 (1 + 1) h
    rw [tokenizeLoop]
    simp only [h, hrest]
    rw [tokenizeLoop]
    simp
    exact ⟨rfl, rfl⟩
  · decide

/-- Claim C6 (amended): if the block comment opened by `/*` is never closed before
end of input, the scan appends exactly one `InvalidNestedComment` error
carrying the position the scanner recorded for the *outermost* opener —
its line, and the column just past the two opener characters, which is
what the source stores as `comment_start_column` after advancing over
`/*` — and the returned token vector still ends with (here: consists
of) the `EOF` token.  Nested unclosed openers add no further errors. -/
theorem tokenize_unclosed_comment_single_error (rest : List Char) (line col : Nat)
    (h : (scanBlockComment rest 1 line (col + 2)).closed = false) :
    tokenizeLoop ('/' :: '*' :: rest) line col =
      ([Token.eof], [TokenizerError.invalidNestedComment line (col + 2)]) := by
  have hrest := scanBlockComment_not_closed_rest rest 1 line (col + 2) h
  rw [tokenizeLoop]
  simp only [h, hrest]
  rw [tokenizeLoop]
  simp

/-- Witness for C6, the spec's concrete scenario: tokenizing
`"/* outer /* inner */ "` (the opener `/*` starts at line 1, column 1;
the recorded position is column 3) yields exactly one
`InvalidNestedComment` error and the token vector `[EOF]`. -/
theorem tokenize_unclosed_comment_single_error_witness :
    (scanBlockComment (" outer /* inner */ ".data) 1 1 3).closed = false ∧
      tokenize "/* outer /* inner */ " =
        ([Token.eof], [TokenizerError.invalidNestedComment 1 3]) :=
  ⟨by decide, tokenize_unclosed_comment_single_error (" outer /* inner */ ".data) 1 1 (by decide)⟩

/-- Claim C7 (amended): if a string literal's opening quote is never matched by an
unescaped closing quote, the scan appends an `UnterminatedString` error
carrying the position recorded for the opening — its line, and the
column just past the quote, which is what the source stores as
`string_start_column` after advancing over `"` — and still emits the
`String` token with the partial decoded payload accumulated so far,
followed by `EOF`.  (A trailing lone backslash additionally reports its
own `UnterminatedString` first, collected in `errs`.) -/
theorem tokenize_unterminated_string_error_and_token (rest : List Char) (line col : Nat)
    (h : (scanString rest line (col + 1)).terminated = false) :
    tokenizeLoop ('\x22' :: rest) line col =
      ([Token.string (scanString rest line (col + 1)).payload, Token.eof],
        (scanString rest line (col + 1)).errs ++
          [TokenizerError.unterminatedString line (col + 1)]) := by
  have hrest := scanString_not_terminated_rest rest line (col + 1) h
  rw [tokenizeLoop]
  simp only [h, hrest]
  rw [tokenizeLoop]
  simp

/-- Witness for C7: tokenizing `"ab` (quote at line 1 column 1, recorded
opening position column 2) yields the partial `String` token `"ab"`,
the `EOF` token, and one `UnterminatedString` error. -/
theorem tokenize_unterminated_string_error_and_token_witness :
    (scanString ("ab".data) 1 2).terminated = false ∧
      tokenize "\x22ab" = ([Token.string ('a' :: 'b' :: []), Token.eof],
        [TokenizerError.unterminatedString 1 2]) :=
  ⟨by decide, tokenize_unterminated_string_error_and_token ("ab".data) 1 1 (by decide)⟩

/-- Claim C8 (counterexample): on a fresh registry, `add_property_id`
mints property id 1 but reserves the slot with the *default* sentinel,
whose `id` field is 0, not the freshly minted id. -/
theorem add_property_id_sentinel_id_zero :
    (add_property_id InMemoryRegistry.newReg "x" 1).map (fun pr => pr.1) = some 1 ∧
      (add_property_id InMemoryRegistry.newReg "x" 1).map
        (fun pr => (lookupA pr.1 pr.2.properties).map (fun pv => pv.1.id)) = some (some 0) ∧
      (0 : Nat) ≠ 1 := by decide

/-- Claim C8 (amended): every successful `add_property_id` returns the
pre-call `next_property_id` counter as the fresh id and reserves that id
with the sentinel `Property::default()` — `id = 0`,
`inner_type = Invalid`, `source = 0` — paired with the property name. -/
theorem add_property_id_reserves_default_sentinel
    (reg : InMemoryRegistry) (name : String) (cls : ClassID)
    (pid : PropertyID) (reg' : InMemoryRegistry)
    (h : add_property_id reg name cls = some (pid, reg')) :
    pid = reg.next_property_id ∧
      lookupA pid reg'.properties = some (Property.default, name) := by
  simp only [add_property_id] at h
  by_cases h1 : (lookupA cls ((lookupA name reg.property_names).getD [])).isSome = true
  · rw [if_pos h1] at h
    exact absurd h (by simp)
  · rw [if_neg h1] at h
    cases h2 : lookupA reg.next_property_id reg.properties with
    | some p => rw [h2] at h; exact absurd h (by simp)
    | none =>
        rw [h2] at h
        simp only [Option.some.injEq, Prod.mk.injEq] at h
        obtain ⟨hpid, hreg⟩ := h
        subst hpid
        subst hreg
        exact ⟨rfl, by simp [lookupA]⟩

/-- Witness for C8: the fresh-registry instance, with the resulting
registry state spelled out. -/
theorem add_property_id_reserves_default_sentinel_witness :
    add_property_id InMemoryRegistry.newReg "x" 1 = some (1, regW8) ∧
      (1 = InMemoryRegistry.newReg.next_property_id ∧
        lookupA 1 regW8.properties = some (Property.default, "x")) :=
  ⟨rfl, add_property_id_reserves_default_sentinel InMemoryRegistry.newReg "x" 1 1 regW8 rfl⟩

/-- Claim C9: `ClassMeta::new` returns (rather than panicking) exactly
when every parent in the iteration list has metadata in the registry;
equivalently, a single parent lacking metadata makes the constructor
abort, and under the precondition that all parents are defined the
lookup inside the loop never fails. -/
theorem classMeta_new_isSome_iff_parents_defined (reg : ClassID → Option ClassMeta)
    (id : ClassID) (parents : List ClassID) (props : List (String × Property)) :
    (ClassMeta.new reg id parents props).isSome = true ↔
      ∀ p ∈ parents, (reg p).isSome = true :=
  mergeParents_isSome reg id parents _

/-- Claim C10: an `EOL` token arises only from a newline seen at the top
level of the scan loop.  In order: (1) a top-level newline emits exactly
one `EOL` and advances the line counter; (2) the block comment arm
contributes no token whatsoever beyond the continuation's, so its
newlines produce no `EOL`; (3) every newline the comment loop consumes
bumps the line counter; (4) the string arm contributes exactly one
`String` token carrying the decoded payload, so its newlines produce no
`EOL`; (5) every newline the string loop consumes is kept in the
decoded payload. -/
theorem tokenize_eol_only_top_level :
    (∀ rest line col, tokenizeLoop ('\n' :: rest) line col =
        (Token.eol :: (tokenizeLoop rest (line + 1) 1).1, (tokenizeLoop rest (line + 1) 1).2)) ∧
    (∀ rest line col, (tokenizeLoop ('/' :: '*' :: rest) line col).1 =
        (tokenizeLoop (scanBlockComment rest 1 line (col + 2)).rest
          (scanBlockComment rest 1 line (col + 2)).line
          (scanBlockComment rest 1 line (col + 2)).col).1) ∧
    (∀ l depth line col, (scanBlockComment l depth line col).line +
          (scanBlockComment l depth line col).rest.count '\n' = line + l.count '\n') ∧
    (∀ rest line col, (tokenizeLoop ('\x22' :: rest) line col).1 =
        Token.string (scanString rest line (col + 1)).payload ::
          (tokenizeLoop (scanString rest line (col + 1)).rest
            (scanString rest line (col + 1)).line
            (scanString rest line (col + 1)).col).1) ∧
    (∀ l line col, l.count '\n' ≤ (scanString l line col).payload.count '\n' +
          (scanString l line col).rest.count '\n') :=
  ⟨tokenizeLoop_newline_step, tokenizeLoop_blockComment_tokens, scanBlockComment_line_count,
    tokenizeLoop_string_tokens, scanString_newline_count⟩
